import Mathlib

/-
Verification of the observer/subscription subsystem of
djangochannelsrestframework against its specification.

The definitions below are a shallow embedding of the Python sources:

* `djangochannelsrestframework/observer/model_observer.py`
  (`Action`, `ModelObserver.serialize`, `ModelObserver.generate_messages`,
  `ModelObserver.prepare_messages`, `ModelObserver.database_event`,
  `ModelObserver._update_current_groups`,
  `ModelObserver.send_prepared_messages`, the `model_cls` setter);
* `djangochannelsrestframework/observer/base_observer.py`
  (`BaseObserver.subscribe`, `BaseObserver.unsubscribe`,
  `BaseObserver.group_names_for_consumer`, `BaseObserver.group_names_for_signal`,
  `BaseObserver.clean_group_name`);
* `djangochannelsrestframework/consumers.py`
  (`AsyncAPIConsumer.add_group`, `AsyncAPIConsumer.remove_group`).

Group names are Lean `String`s, request ids are `Nat`s, serialized message
bodies are a type parameter `β`.  Django's on-commit machinery is modelled by
an explicit list of queued callbacks: `commit` runs them in registration
order, `rollback` discards them (Django drops the `run_on_commit` list when
the atomic block rolls back).  Python dicts keyed by group name are modelled
as association lists (`List (String × Finset Nat)`), with the `defaultdict`
behaviour of inserting a default value on plain item access made explicit.
-/

namespace DCRF

/-- Action, model_observer.py: the three event flavors create/update/delete. -/
inductive Action : Type where
  | create : Action
  | update : Action
  | delete : Action
deriving DecidableEq, Repr

/-- A serialized message as built by `ModelObserver.serialize`:
`dict(type=..., body=..., action=action.value)`.  The body is abstract. -/
structure Msg (β : Type) : Type where
  type : String
  body : β
  action : Action
deriving DecidableEq, Repr

/-- A message fanned out to one group, as yielded by `generate_messages`:
`{**message_body, "group": group_name}`. -/
structure GMsg (β : Type) : Type where
  type : String
  body : β
  action : Action
  group : String
deriving DecidableEq, Repr

/-- ModelObserver.serialize: builds the message envelope.  `bodyFor` models
the body computation (custom serializer / serializer_class / pk fallback);
the `action` field of the result is always the action passed in. -/
def serialize (typeName : String) (bodyFor : Action → β) (action : Action) : Msg β :=
  ⟨typeName, bodyFor action, action⟩

/-- Merging the group key into a message body: `{**message_body, "group": g}`. -/
def with_group (m : Msg β) (g : String) : GMsg β :=
  ⟨m.type, m.body, m.action, g⟩

/-- delete_group_names in `generate_messages`: `old_group_names - new_group_names`. -/
def to_delete (old_groups new_groups : Finset String) : Finset String :=
  old_groups \ new_groups

/-- update_group_names in `generate_messages`: `old_group_names & new_group_names`. -/
def to_update (old_groups new_groups : Finset String) : Finset String :=
  old_groups ∩ new_groups

/-- create_group_names in `generate_messages`: `new_group_names - old_group_names`. -/
def to_create (old_groups new_groups : Finset String) : Finset String :=
  new_groups \ old_groups

/-- ModelObserver.generate_messages, instrumented: returns the yielded
messages together with the list of actions `self.serialize` was invoked
with (one entry per `serialize` call, in call order).  Each of the three
set differences is serialized once, only when the set is non-empty, and the
single body is fanned out to every group of that set.  Python set iteration
order is unspecified, so the yielded messages are modelled as a multiset. -/
def generate_messages_instr (typeName : String) (bodyFor : Action → β)
    (old_groups new_groups : Finset String) : Multiset (GMsg β) × List Action :=
  let dG := to_delete old_groups new_groups
  let del :=
    if dG.Nonempty then
      let mb := serialize typeName bodyFor Action.delete
      (dG.val.map (with_group mb), [Action.delete])
    else (0, [])
  let uG := to_update old_groups new_groups
  let upd :=
    if uG.Nonempty then
      let mb := serialize typeName bodyFor Action.update
      (uG.val.map (with_group mb), [Action.update])
    else (0, [])
  let cG := to_create old_groups new_groups
  let cre :=
    if cG.Nonempty then
      let mb := serialize typeName bodyFor Action.create
      (cG.val.map (with_group mb), [Action.create])
    else (0, [])
  (del.1 + upd.1 + cre.1, del.2 ++ upd.2 ++ cre.2)

/-- ModelObserver.generate_messages: just the yielded messages. -/
def generate_messages (typeName : String) (bodyFor : Action → β)
    (old_groups new_groups : Finset String) : Multiset (GMsg β) :=
  (generate_messages_instr typeName bodyFor old_groups new_groups).1

/-- The serializer invocations performed by one `generate_messages` run. -/
def serializer_calls (typeName : String) (bodyFor : Action → β)
    (old_groups new_groups : Finset String) : List Action :=
  (generate_messages_instr typeName bodyFor old_groups new_groups).2

lemma mem_generate_messages {β : Type} {typeName : String} {bodyFor : Action → β}
    {old_groups new_groups : Finset String} {m : GMsg β}
    (hm : m ∈ generate_messages typeName bodyFor old_groups new_groups) :
    (m.action = Action.delete ∧ m.group ∈ to_delete old_groups new_groups) ∨
    (m.action = Action.update ∧ m.group ∈ to_update old_groups new_groups) ∨
    (m.action = Action.create ∧ m.group ∈ to_create old_groups new_groups) := by
  simp only [generate_messages, generate_messages_instr] at hm
  rcases Multiset.mem_add.1 hm with h | h
  · rcases Multiset.mem_add.1 h with h' | h'
    · left
      by_cases hne : (to_delete old_groups new_groups).Nonempty
      · simp only [hne, if_pos, Multiset.mem_map, Finset.mem_val] at h'
        obtain ⟨g, hg, rfl⟩ := h'
        exact ⟨rfl, hg⟩
      · simp [hne] at h'
    · right; left
      by_cases hne : (to_update old_groups new_groups).Nonempty
      · simp only [hne, if_pos, Multiset.mem_map, Finset.mem_val] at h'
        obtain ⟨g, hg, rfl⟩ := h'
        exact ⟨rfl, hg⟩
      · simp [hne] at h'
  · right; right
    by_cases hne : (to_create old_groups new_groups).Nonempty
    · simp only [hne, if_pos, Multiset.mem_map, Finset.mem_val] at h
      obtain ⟨g, hg, rfl⟩ := h
      exact ⟨rfl, hg⟩
    · simp [hne] at h

lemma to_delete_inter_to_update (old_groups new_groups : Finset String) :
    to_delete old_groups new_groups ∩ to_update old_groups new_groups = ∅ := by
  ext a
  simp only [to_delete, to_update, Finset.mem_inter, Finset.mem_sdiff, Finset.not_mem_empty,
    iff_false]
  tauto

lemma to_delete_inter_to_create (old_groups new_groups : Finset String) :
    to_delete old_groups new_groups ∩ to_create old_groups new_groups = ∅ := by
  ext a
  simp only [to_delete, to_create, Finset.mem_inter, Finset.mem_sdiff, Finset.not_mem_empty,
    iff_false]
  tauto

lemma to_update_inter_to_create (old_groups new_groups : Finset String) :
    to_update old_groups new_groups ∩ to_create old_groups new_groups = ∅ := by
  ext a
  simp only [to_update, to_create, Finset.mem_inter, Finset.mem_sdiff, Finset.not_mem_empty,
    iff_false]
  tauto

lemma delta_union (old_groups new_groups : Finset String) :
    to_delete old_groups new_groups ∪ to_update old_groups new_groups ∪
      to_create old_groups new_groups = old_groups ∪ new_groups := by
  ext a
  simp only [to_delete, to_update, to_create, Finset.mem_union, Finset.mem_sdiff,
    Finset.mem_inter]
  tauto

/-- C1: the three sets computed by `ModelObserver.generate_messages` are
pairwise disjoint, their union is `old_groups ∪ new_groups`, and every
yielded message carries the action flavor of the (unique) set its group
belongs to: delete-flavored for `to_delete`, update-flavored for
`to_update`, create-flavored for `to_create`. -/
theorem generate_messages_delta_partition (β : Type) (typeName : String)
    (bodyFor : Action → β) (old_groups new_groups : Finset String) :
    (to_delete old_groups new_groups ∩ to_update old_groups new_groups = ∅ ∧
     to_delete old_groups new_groups ∩ to_create old_groups new_groups = ∅ ∧
     to_update old_groups new_groups ∩ to_create old_groups new_groups = ∅) ∧
    (to_delete old_groups new_groups ∪ to_update old_groups new_groups ∪
       to_create old_groups new_groups = old_groups ∪ new_groups) ∧
    (∀ m ∈ generate_messages typeName bodyFor old_groups new_groups,
      (m.action = Action.delete ∧ m.group ∈ to_delete old_groups new_groups) ∨
      (m.action = Action.update ∧ m.group ∈ to_update old_groups new_groups) ∨
      (m.action = Action.create ∧ m.group ∈ to_create old_groups new_groups)) :=
  ⟨⟨to_delete_inter_to_update old_groups new_groups,
    to_delete_inter_to_create old_groups new_groups,
    to_update_inter_to_create old_groups new_groups⟩,
   delta_union old_groups new_groups,
   fun _ hm => mem_generate_messages hm⟩

/-- C1 witness: the partition property evaluated at the concrete transition
from groups a,b to groups b,c, with a concrete yielded message. -/
theorem generate_messages_delta_partition_witness :
    (Action.delete = Action.delete ∧
      "a" ∈ to_delete ({"a", "b"} : Finset String) {"b", "c"}) ∨
    (Action.delete = Action.update ∧
      "a" ∈ to_update ({"a", "b"} : Finset String) {"b", "c"}) ∨
    (Action.delete = Action.create ∧
      "a" ∈ to_create ({"a", "b"} : Finset String) {"b", "c"}) := by
  have h := (generate_messages_delta_partition Unit "t" (fun _ => ())
    ({"a", "b"} : Finset String) {"b", "c"}).2.2
    (⟨"t", (), Action.delete, "a"⟩ : GMsg Unit) (by decide)
  exact h

/-- C3: per mutation event, `generate_messages` invokes the serializer at
most once per action flavor, however many groups each flavored message fans
out to; a flavor whose group set is empty triggers no serializer call. -/
theorem serializer_once_per_flavor (β : Type) (typeName : String)
    (bodyFor : Action → β) (old_groups new_groups : Finset String) :
    (serializer_calls typeName bodyFor old_groups new_groups).count Action.delete ≤ 1 ∧
    (serializer_calls typeName bodyFor old_groups new_groups).count Action.update ≤ 1 ∧
    (serializer_calls typeName bodyFor old_groups new_groups).count Action.create ≤ 1 ∧
    (to_delete old_groups new_groups = ∅ →
      Action.delete ∉ serializer_calls typeName bodyFor old_groups new_groups) ∧
    (to_update old_groups new_groups = ∅ →
      Action.update ∉ serializer_calls typeName bodyFor old_groups new_groups) ∧
    (to_create old_groups new_groups = ∅ →
      Action.create ∉ serializer_calls typeName bodyFor old_groups new_groups) := by
  simp only [serializer_calls, generate_messages_instr]
  by_cases h1 : (to_delete old_groups new_groups).Nonempty <;>
    by_cases h2 : (to_update old_groups new_groups).Nonempty <;>
      by_cases h3 : (to_create old_groups new_groups).Nonempty <;>
        simp_all [Finset.nonempty_iff_ne_empty, List.count_cons, List.count_nil]

/-- C3 witness: at the transition from groups a,b to groups b,c every flavor
set is the singleton it should be, each flavor is serialized exactly once,
and the empty-flavor clause holds at a transition with no deleted groups. -/
theorem serializer_once_per_flavor_witness :
    ((serializer_calls "t" (fun _ => ()) ({"a", "b"} : Finset String)
        {"b", "c"}).count Action.delete ≤ 1 ∧
     to_delete (∅ : Finset String) {"c"} = ∅ ∧
     Action.delete ∉ serializer_calls "t" (fun _ => ()) (∅ : Finset String) {"c"}) := by
  refine ⟨(serializer_once_per_flavor Unit "t" (fun _ => ())
    ({"a", "b"} : Finset String) {"b", "c"}).1, by decide, ?_⟩
  exact (serializer_once_per_flavor Unit "t" (fun _ => ())
    (∅ : Finset String) {"c"}).2.2.2.1 (by decide)

/-- ModelObserverInstanceState for one tracked instance: the last committed
group snapshot and the queue of not-yet-broadcast messages (list order
abstracted to a multiset). -/
structure OState (β : Type) : Type where
  current_groups : Finset String
  pending_messages : Multiset (GMsg β)
deriving DecidableEq

/-- A callback queued with Django's `transaction.on_commit`: either
`ModelObserver._update_current_groups` (registered inside
`prepare_messages`) or `ModelObserver.send_prepared_messages` (registered
at the end of `database_event`). -/
inductive TxCallback : Type where
  | upd_groups (gs : Finset String) : TxCallback
  | send_prepared : TxCallback
deriving DecidableEq

/-- The state of one ModelObserver towards one tracked instance, together
with the connection's queue of on-commit callbacks and the multiset of
messages handed to `channel_layer.group_send` so far. -/
structure MOState (β : Type) : Type where
  ostate : OState β
  on_commit : List TxCallback
  sent : Multiset (GMsg β)
deriving DecidableEq

/-- ModelObserver.prepare_messages: picks `old_group_names` (empty on
CREATE, else the `current_groups` snapshot) and `new_group_names` (empty on
DELETE, else `group_names_for_signal` of the instance, passed here as
`signal_groups`), registers `_update_current_groups` as an on-commit
callback, and yields the `generate_messages` diff. -/
def prepare_messages (typeName : String) (bodyFor : Action → β)
    (signal_groups : Finset String) (action : Action) (s : MOState β) :
    MOState β × Multiset (GMsg β) :=
  let old_group_names :=
    if action = Action.create then ∅ else s.ostate.current_groups
  let new_group_names :=
    if action = Action.delete then ∅ else signal_groups
  ({ s with on_commit := s.on_commit ++ [TxCallback.upd_groups new_group_names] },
   generate_messages typeName bodyFor old_group_names new_group_names)

/-- ModelObserver.database_event: stores `list(self.prepare_messages(...))`
into the instance state's `pending_messages` (an assignment, not an
append), then registers `send_prepared_messages` with
`connection.on_commit`. -/
def database_event (typeName : String) (bodyFor : Action → β)
    (signal_groups : Finset String) (action : Action) (s : MOState β) : MOState β :=
  let p := prepare_messages typeName bodyFor signal_groups action s
  let s1 := { p.1 with ostate := { p.1.ostate with pending_messages := p.2 } }
  { s1 with on_commit := s1.on_commit ++ [TxCallback.send_prepared] }

/-- ModelObserver.send_prepared_messages: reads the pending queue, resets it
to empty, returns early when it was empty, otherwise group_sends every
queued message. -/
def send_prepared_messages (s : MOState β) : MOState β :=
  let messages := s.ostate.pending_messages
  let s1 := { s with ostate := { s.ostate with pending_messages := 0 } }
  if messages.card = 0 then s1
  else { s1 with sent := s1.sent + messages }

/-- Runs one queued on-commit callback. -/
def run_callback (s : MOState β) : TxCallback → MOState β
  | TxCallback.upd_groups gs =>
      { s with ostate := { s.ostate with current_groups := gs } }
  | TxCallback.send_prepared => send_prepared_messages s

/-- Django commit: the queued on-commit callbacks run in registration order
and the queue is cleared. -/
def commit (s : MOState β) : MOState β :=
  s.on_commit.foldl run_callback { s with on_commit := [] }

/-- Django rollback: the queued on-commit callbacks are discarded without
running (`run_on_commit` is dropped when the atomic block rolls back). -/
def rollback (s : MOState β) : MOState β :=
  { s with on_commit := [] }

/-- A sequence of mutations inside one open transaction: each fires
`database_event` with the instance's group set at that point. -/
def run_events (typeName : String) (bodyFor : Action → β) (s : MOState β)
    (events : List (Finset String × Action)) : MOState β :=
  events.foldl (fun st e => database_event typeName bodyFor e.1 e.2 st) s

lemma database_event_sent_and_groups (typeName : String) (bodyFor : Action → β)
    (signal_groups : Finset String) (action : Action) (s : MOState β) :
    (database_event typeName bodyFor signal_groups action s).sent = s.sent ∧
    (database_event typeName bodyFor signal_groups action s).ostate.current_groups
      = s.ostate.current_groups := by
  simp [database_event, prepare_messages]

/-- C2: mutations inside a transaction that is rolled back broadcast
nothing and leave `current_groups` untouched: both the group sends and the
`current_groups := new_groups` assignment are queued as on-commit callbacks,
and rollback discards the queue without running it. -/
theorem rollback_produces_no_delivery (β : Type) (typeName : String)
    (bodyFor : Action → β) (events : List (Finset String × Action)) (s : MOState β) :
    (rollback (run_events typeName bodyFor s events)).sent = s.sent ∧
    (rollback (run_events typeName bodyFor s events)).ostate.current_groups
      = s.ostate.current_groups := by
  suffices h : (run_events typeName bodyFor s events).sent = s.sent ∧
      (run_events typeName bodyFor s events).ostate.current_groups
        = s.ostate.current_groups by
    simpa [rollback] using h
  induction events generalizing s with
  | nil => exact ⟨rfl, rfl⟩
  | cons e rest ih =>
    have h1 := database_event_sent_and_groups typeName bodyFor e.1 e.2 s
    have h2 := ih (database_event typeName bodyFor e.1 e.2 s)
    simp only [run_events, List.foldl_cons] at h2 ⊢
    exact ⟨h2.1.trans h1.1, h2.2.trans h1.2⟩

/-- C10: flushing is exactly-once per pending batch:
`send_prepared_messages` broadcasts precisely the queued batch, leaves the
queue empty, and running it again (a later on-commit callback registered by
another mutation in the same transaction) finds the empty queue and sends
nothing. -/
theorem send_prepared_messages_exactly_once (β : Type) (s : MOState β) :
    (send_prepared_messages s).sent = s.sent + s.ostate.pending_messages ∧
    (send_prepared_messages s).ostate.pending_messages = 0 ∧
    send_prepared_messages (send_prepared_messages s) = send_prepared_messages s := by
  by_cases h : s.ostate.pending_messages = 0 <;>
    simp [send_prepared_messages, h, Multiset.card_eq_zero]

/-- A fresh tracked instance: no committed groups, nothing pending, no
callbacks queued, nothing sent. -/
def fresh_instance_state : MOState Unit := ⟨⟨∅, 0⟩, [], 0⟩

/-- C4 counterexample: two mutations inside one open transaction.  The
first (a create entering group a) queues a create-flavored message for
group a; after the second mutation's `database_event` (an update moving the
diff to group b) that message is gone from the pending queue, because
`database_event` assigns `pending_messages = list(prepare_messages(...))`
instead of appending. -/
theorem pending_messages_not_preserved :
    (database_event "t" (fun _ => ()) {"a"} Action.create
        fresh_instance_state).ostate.pending_messages
      = {(⟨"t", (), Action.create, "a"⟩ : GMsg Unit)} ∧
    (⟨"t", (), Action.create, "a"⟩ : GMsg Unit) ∉
      (database_event "t" (fun _ => ()) {"b"} Action.update
        (database_event "t" (fun _ => ()) {"a"} Action.create
          fresh_instance_state)).ostate.pending_messages := by
  decide

/-- C4 amended: a later mutation's `database_event` replaces the pending
queue with its own freshly computed diff (computed against the still
unadvanced `current_groups` snapshot), discarding the messages queued by
earlier mutations in the same transaction; at commit exactly the last
mutation's messages are broadcast, once, and `current_groups` advances to
the last mutation's new group set. -/
theorem database_event_replaces_pending (β : Type) (typeName : String)
    (bodyFor : Action → β) (g1 g2 : Finset String) (a1 a2 : Action)
    (s : MOState β) (h : s.on_commit = []) :
    (database_event typeName bodyFor g2 a2
        (database_event typeName bodyFor g1 a1 s)).ostate.pending_messages
      = generate_messages typeName bodyFor
          (if a2 = Action.create then ∅ else s.ostate.current_groups)
          (if a2 = Action.delete then ∅ else g2) ∧
    (commit (database_event typeName bodyFor g2 a2
        (database_event typeName bodyFor g1 a1 s))).sent
      = s.sent + (database_event typeName bodyFor g2 a2
          (database_event typeName bodyFor g1 a1 s)).ostate.pending_messages ∧
    (commit (database_event typeName bodyFor g2 a2
        (database_event typeName bodyFor g1 a1 s))).ostate.current_groups
      = (if a2 = Action.delete then ∅ else g2) := by
  refine ⟨by simp [database_event, prepare_messages], ?_, ?_⟩ <;>
  · simp only [database_event, prepare_messages, commit, h]
    by_cases hp : (generate_messages typeName bodyFor
        (if a2 = Action.create then ∅ else s.ostate.current_groups)
        (if a2 = Action.delete then ∅ else g2)) = 0 <;>
      simp [run_callback, send_prepared_messages, hp, Multiset.card_eq_zero]

/-- C4 amended witness: the create-into-a then update-to-b transaction from
the counterexample, committed: only the second diff (a create-flavored
message for group b) is broadcast, and the committed snapshot is b. -/
theorem database_event_replaces_pending_witness :
    (database_event "t" (fun _ => ()) {"b"} Action.update
        (database_event "t" (fun _ => ()) {"a"} Action.create
          fresh_instance_state)).ostate.pending_messages
      = generate_messages "t" (fun _ => ())
          (if Action.update = Action.create then ∅
            else fresh_instance_state.ostate.current_groups)
          (if Action.update = Action.delete then ∅ else {"b"}) ∧
    (commit (database_event "t" (fun _ => ()) {"b"} Action.update
        (database_event "t" (fun _ => ()) {"a"} Action.create
          fresh_instance_state))).sent
      = fresh_instance_state.sent +
          (database_event "t" (fun _ => ()) {"b"} Action.update
            (database_event "t" (fun _ => ()) {"a"} Action.create
              fresh_instance_state)).ostate.pending_messages ∧
    (commit (database_event "t" (fun _ => ()) {"b"} Action.update
        (database_event "t" (fun _ => ()) {"a"} Action.create
          fresh_instance_state))).ostate.current_groups
      = (if Action.update = Action.delete then ∅ else ({"b"} : Finset String)) :=
  database_event_replaces_pending Unit "t" (fun _ => ()) {"a"} {"b"}
    Action.create Action.update fresh_instance_state rfl

/-- The binding state of a ModelObserver: the `_model_cls` attribute and
whether `_connect` (the signal-receiver registration) has run. -/
structure MOBinding : Type where
  _model_cls : Option String
  connected : Bool
deriving DecidableEq, Repr

/-- The `model_cls` property setter of ModelObserver: remembers whether the
attribute was None, overwrites it unconditionally, and runs `_connect` only
when a non-None value replaces a None one. -/
def set_model_cls (s : MOBinding) (value : Option String) : MOBinding :=
  let was_none := s._model_cls.isNone
  let s1 := { s with _model_cls := value }
  if s1._model_cls.isSome && was_none then { s1 with connected := true } else s1

/-- C9 counterexample: a ModelObserver already bound to one model and
rebound to a different one.  The setter raises nothing and silently
overwrites the attribute, so rebinding is accepted, not rejected. -/
theorem rebinding_silently_accepted :
    set_model_cls ⟨some "app.modela", true⟩ (some "app.modelb")
      = ⟨some "app.modelb", true⟩ := by
  decide

/-- C9 amended: assigning a different model class to an already bound
ModelObserver is silently accepted: the attribute is overwritten with the
new value and no error is raised; only the signal-connection step is
skipped, so the `connected` flag is left as it was. -/
theorem set_model_cls_overwrites (s : MOBinding) (a b : String)
    (h : s._model_cls = some a) :
    (set_model_cls s (some b))._model_cls = some b ∧
    (set_model_cls s (some b)).connected = s.connected := by
  simp [set_model_cls, h]

/-- C9 amended witness: rebinding the concrete bound observer. -/
theorem set_model_cls_overwrites_witness :
    (set_model_cls ⟨some "app.modela", true⟩ (some "app.modelb"))._model_cls
      = some "app.modelb" ∧
    (set_model_cls ⟨some "app.modela", true⟩ (some "app.modelb")).connected
      = (⟨some "app.modela", true⟩ : MOBinding).connected :=
  set_model_cls_overwrites ⟨some "app.modela", true⟩ "app.modela" "app.modelb" rfl

/-- Python `g in d` on the observer's group-to-request-ids dict. -/
def dict_contains (m : List (String × Finset Nat)) (g : String) : Bool :=
  m.any (fun p => p.1 == g)

/-- The value stored under key `g` (the empty set when the key is absent;
lookups in the code are always guarded by `dict_contains` or follow a
defaultdict access, so the default is never observed otherwise). -/
def dict_find (m : List (String × Finset Nat)) (g : String) : Finset Nat :=
  ((m.find? (fun p => p.1 == g)).map Prod.snd).getD ∅

/-- defaultdict item access `d[g]`: returns the updated dict and the entry,
inserting an empty set first when the key is absent. -/
def dict_item (m : List (String × Finset Nat)) (g : String) :
    List (String × Finset Nat) × Finset Nat :=
  if dict_contains m g then (m, dict_find m g) else (m ++ [(g, ∅)], ∅)

/-- dict assignment `d[g] = v`: replaces the entry (keys are unique in a
Python dict, so replacing the first match models it), appending when the
key is absent. -/
def dict_put : List (String × Finset Nat) → String → Finset Nat →
    List (String × Finset Nat)
  | [], g, v => [(g, v)]
  | p :: rest, g, v =>
      if p.1 == g then (g, v) :: rest else p :: dict_put rest g v

/-- dict `d.pop(g)` (only called under a `g in d` guard). -/
def dict_pop (m : List (String × Finset Nat)) (g : String) :
    List (String × Finset Nat) :=
  m.filter (fun p => !(p.1 == g))

/-- One consumer's observer-related state: the registry
`_observer_group_to_request_id[stable_observer_id]`, the transport-joined
`groups` set, and logs of the `group_add` / `group_discard` calls issued to
the channel layer. -/
structure Consumer : Type where
  registry : List (String × Finset Nat)
  groups : Finset String
  sent_adds : List String
  sent_discards : List String
deriving DecidableEq

instance {e a : Type} [DecidableEq e] [DecidableEq a] : DecidableEq (Except e a) :=
  fun x y =>
  match x, y with
  | Except.error u, Except.error v =>
      if h : u = v then Decidable.isTrue (congrArg Except.error h)
      else Decidable.isFalse (fun hc => h (Except.error.inj hc))
  | Except.error _, Except.ok _ => Decidable.isFalse (fun hc => Except.noConfusion hc)
  | Except.ok _, Except.error _ => Decidable.isFalse (fun hc => Except.noConfusion hc)
  | Except.ok u, Except.ok v =>
      if h : u = v then Decidable.isTrue (congrArg Except.ok h)
      else Decidable.isFalse (fun hc => h (Except.ok.inj hc))

/-- AsyncAPIConsumer.add_group: issues `group_add` and records the group
only when not already joined. -/
def add_group (c : Consumer) (name : String) : Consumer :=
  if name ∈ c.groups then c
  else { c with sent_adds := c.sent_adds ++ [name], groups := insert name c.groups }

/-- AsyncAPIConsumer.remove_group: issues `group_discard` and forgets the
group only when currently joined. -/
def remove_group (c : Consumer) (name : String) : Consumer :=
  if name ∈ c.groups then
    { c with sent_discards := c.sent_discards ++ [name],
             groups := c.groups.erase name }
  else c

/-- One iteration of the loop in BaseObserver.subscribe: when a request_id
is given, add it to the group's registry entry (a defaultdict access
followed by a set add), then `await consumer.add_group(group_name)`. -/
def subscribe_step (request_id : Option Nat) (c : Consumer) (g : String) : Consumer :=
  let c1 :=
    match request_id with
    | some r =>
        let mi := dict_item c.registry g
        { c with registry := dict_put mi.1 g (insert r mi.2) }
    | none => c
  add_group c1 g

/-- BaseObserver.subscribe: loops `subscribe_step` over the groups resolved
by `group_names_for_consumer`. -/
def subscribe (request_id : Option Nat) (c : Consumer) (gs : List String) : Consumer :=
  gs.foldl (subscribe_step request_id) c

/-- One iteration of the loop in BaseObserver.unsubscribe.  When the group
has a registry entry: with no request_id the entry is popped, otherwise
`entry.remove(request_id)` runs — Python's `set.remove`, which raises
KeyError (modelled as `Except.error ()`) when the id is absent.  Then the
group's entry is re-read through a defaultdict access and
`consumer.remove_group` is called when `len(entry) > 0`. -/
def unsubscribe_step (request_id : Option Nat) (c : Consumer) (g : String) :
    Except Unit Consumer :=
  let step1 : Except Unit Consumer :=
    if dict_contains c.registry g then
      match request_id with
      | none => Except.ok { c with registry := dict_pop c.registry g }
      | some r =>
          if r ∈ dict_find c.registry g then
            Except.ok { c with
              registry := dict_put c.registry g ((dict_find c.registry g).erase r) }
          else Except.error ()
    else Except.ok c
  match step1 with
  | Except.error e => Except.error e
  | Except.ok c1 =>
      let mi := dict_item c1.registry g
      let c2 := { c1 with registry := mi.1 }
      if mi.2.card > 0 then Except.ok (remove_group c2 g) else Except.ok c2

/-- BaseObserver.unsubscribe: loops `unsubscribe_step` over the groups
resolved by `group_names_for_consumer`, propagating a raised KeyError. -/
def unsubscribe (request_id : Option Nat) (c : Consumer) (gs : List String) :
    Except Unit Consumer :=
  gs.foldlM (unsubscribe_step request_id) c

/-- A consumer joined to group g with request ids 1 and 2 subscribed. -/
def two_subscriber_state : Consumer := ⟨[("g", {1, 2})], {"g"}, [], []⟩

/-- A consumer joined to group g with only request id 1 subscribed. -/
def one_subscriber_state : Consumer := ⟨[("g", {1})], {"g"}, [], []⟩

/-- C5 failing input: the `len(...) > 0` guard in BaseObserver.unsubscribe
is inverted.  Unsubscribing request 1 while request 2 stays subscribed
leaves a non-empty registry entry, yet `group_discard` IS issued and the
consumer leaves the transport group; unsubscribing the only request 1 makes
the entry empty, yet no `group_discard` is issued and the consumer stays
joined.  The repository's own tests (test_observer.py
`test_observer_unsubscribe_behavior_with_custom_groups`) require the
opposite: no further delivery once the last request id is removed. -/
theorem group_discard_condition_inverted :
    unsubscribe (some 1) two_subscriber_state ["g"]
      = Except.ok ⟨[("g", {2})], ∅, [], ["g"]⟩ ∧
    unsubscribe (some 1) one_subscriber_state ["g"]
      = Except.ok ⟨[("g", ∅)], {"g"}, [], []⟩ := by
  decide

/-- C6 counterexample: unsubscribing a request_id that was never subscribed
is not a no-op when the resolved group has a registry entry (here request 2
is subscribed to g, request 7 never was): `set.remove` raises KeyError. -/
theorem unsubscribe_unknown_rid_raises :
    unsubscribe (some 7) ⟨[("g", {2})], {"g"}, [], []⟩ ["g"]
      = Except.error () := by
  decide

/-- C6 amended: unsubscribing a never-subscribed request_id raises KeyError
whenever a resolved group has a registry entry (the id cannot be in it); when
no resolved group has an entry it raises nothing and issues no group_discard,
but it is not a pure no-op on the registry either: the defaultdict length
check inserts an empty entry for the group. -/
theorem unsubscribe_never_subscribed (c : Consumer) (g : String) (r : Nat) :
    (dict_contains c.registry g = false →
      unsubscribe (some r) c [g]
        = Except.ok ⟨c.registry ++ [(g, ∅)], c.groups, c.sent_adds, c.sent_discards⟩) ∧
    (dict_contains c.registry g = true → r ∉ dict_find c.registry g →
      unsubscribe (some r) c [g] = Except.error ()) := by
  constructor
  · intro h
    simp [unsubscribe, unsubscribe_step, dict_item, h, dict_find]
  · intro h hr
    simp [unsubscribe, unsubscribe_step, h, hr]

/-- C6 amended witness: both branches at concrete consumers — an empty
registry (no error, an empty entry appears) and a registry where only
request 2 is subscribed (KeyError for request 5). -/
theorem unsubscribe_never_subscribed_witness :
    unsubscribe (some 5) ⟨[], ∅, [], []⟩ ["g"]
      = Except.ok ⟨[("g", ∅)], ∅, [], []⟩ ∧
    unsubscribe (some 5) ⟨[("g", {2})], ∅, [], []⟩ ["g"]
      = Except.error () :=
  ⟨(unsubscribe_never_subscribed ⟨[], ∅, [], []⟩ "g" 5).1 (by decide),
   (unsubscribe_never_subscribed ⟨[("g", {2})], ∅, [], []⟩ "g" 5).2
     (by decide) (by decide)⟩

lemma dict_contains_cons (p : String × Finset Nat) (m : List (String × Finset Nat))
    (g : String) : dict_contains (p :: m) g = ((p.1 == g) || dict_contains m g) := by
  simp [dict_contains]

lemma dict_find_cons (p : String × Finset Nat) (m : List (String × Finset Nat))
    (g : String) :
    dict_find (p :: m) g = if p.1 == g then p.2 else dict_find m g := by
  by_cases h : p.1 == g <;> simp [dict_find, List.find?, h]

lemma dict_contains_put (m : List (String × Finset Nat)) (g : String)
    (v : Finset Nat) : dict_contains (dict_put m g v) g = true := by
  induction m with
  | nil => simp [dict_put, dict_contains]
  | cons p rest ih =>
    by_cases h : p.1 == g
    · simp [dict_put, h, dict_contains_cons]
    · simp [dict_put, h, dict_contains_cons, ih]

lemma dict_find_put (m : List (String × Finset Nat)) (g : String)
    (v : Finset Nat) : dict_find (dict_put m g v) g = v := by
  induction m with
  | nil => simp [dict_put, dict_find, List.find?]
  | cons p rest ih =>
    by_cases h : p.1 == g
    · simp [dict_put, h, dict_find_cons]
    · simp [dict_put, h, dict_find_cons, ih]

lemma dict_put_find_self (m : List (String × Finset Nat)) (g : String)
    (h : dict_contains m g = true) : dict_put m g (dict_find m g) = m := by
  induction m with
  | nil => simp [dict_contains] at h
  | cons p rest ih =>
    by_cases hp : p.1 == g
    · have hg : p.1 = g := by simpa using hp
      cases p with
      | mk k v => simp_all [dict_put, dict_find_cons]
    · have h' : dict_contains rest g = true := by
        simpa [dict_contains_cons, hp] using h
      simp [dict_put, hp, dict_find_cons, ih h']

lemma dict_contains_put_ne (m : List (String × Finset Nat)) (g g' : String)
    (v : Finset Nat) (h : g ≠ g') :
    dict_contains (dict_put m g' v) g = dict_contains m g := by
  have hb : (g' == g) = false := beq_eq_false_iff_ne.mpr h.symm
  induction m with
  | nil => simp [dict_put, dict_contains, hb]
  | cons p rest ih =>
    by_cases hp : p.1 == g'
    · have hg : p.1 = g' := by simpa using hp
      simp [dict_put, hp, dict_contains_cons, hg, hb]
    · simp [dict_put, hp, dict_contains_cons, ih]

lemma dict_find_put_ne (m : List (String × Finset Nat)) (g g' : String)
    (v : Finset Nat) (h : g ≠ g') :
    dict_find (dict_put m g' v) g = dict_find m g := by
  have hb : (g' == g) = false := beq_eq_false_iff_ne.mpr h.symm
  induction m with
  | nil => simp [dict_put, dict_find, List.find?, hb]
  | cons p rest ih =>
    by_cases hp : p.1 == g'
    · have hg : p.1 = g' := by simpa using hp
      simp [dict_put, hp, dict_find_cons, hg, hb]
    · simp [dict_put, hp, dict_find_cons, ih]

lemma dict_find_of_not_contains (m : List (String × Finset Nat)) (g : String)
    (h : dict_contains m g = false) : dict_find m g = ∅ := by
  induction m with
  | nil => simp [dict_find, List.find?]
  | cons p rest ih =>
    rw [dict_contains_cons] at h
    rcases Bool.or_eq_false_iff.1 h with ⟨h1, h2⟩
    simp [dict_find_cons, h1, ih h2]

lemma dict_item_fst_contains (m : List (String × Finset Nat)) (g : String) :
    dict_contains (dict_item m g).1 g = true := by
  by_cases h : dict_contains m g
  · simp [dict_item, h]
  · have hf : dict_contains m g = false := by simpa using h
    simp only [dict_item, hf, Bool.false_eq_true, if_false]
    simp [dict_contains, List.any_append]

lemma dict_item_snd (m : List (String × Finset Nat)) (g : String) :
    (dict_item m g).2 = dict_find m g := by
  by_cases h : dict_contains m g
  · simp [dict_item, h]
  · have hf : dict_contains m g = false := by simpa using h
    simp [dict_item, hf, dict_find_of_not_contains m g hf]

lemma dict_contains_append_single (m : List (String × Finset Nat))
    (g g' : String) (v : Finset Nat) (h : g ≠ g') :
    dict_contains (m ++ [(g', v)]) g = dict_contains m g := by
  have hb : (g' == g) = false := beq_eq_false_iff_ne.mpr h.symm
  simp [dict_contains, List.any_append, hb]

lemma dict_find_append_single (m : List (String × Finset Nat))
    (g g' : String) (v : Finset Nat) (h : g ≠ g') :
    dict_find (m ++ [(g', v)]) g = dict_find m g := by
  have hb : (g' == g) = false := beq_eq_false_iff_ne.mpr h.symm
  have hf : List.find? (fun p => p.1 == g) [(g', v)] = none := by
    simp [List.find?, hb]
  simp [dict_find, List.find?_append, hf]

lemma dict_item_fst_ne (m : List (String × Finset Nat)) (g g' : String)
    (h : g ≠ g') :
    dict_contains (dict_item m g').1 g = dict_contains m g ∧
    dict_find (dict_item m g').1 g = dict_find m g := by
  by_cases hc : dict_contains m g'
  · simp [dict_item, hc]
  · have hf : dict_contains m g' = false := by simpa using hc
    simp [dict_item, hf, dict_contains_append_single m g g' ∅ h,
      dict_find_append_single m g g' ∅ h]

/-- A group is settled for a request id on a consumer: the registry has an
entry for it containing the id, and the consumer is joined to it. -/
def group_settled (r : Nat) (c : Consumer) (g : String) : Prop :=
  dict_contains c.registry g = true ∧ r ∈ dict_find c.registry g ∧ g ∈ c.groups

lemma add_group_registry (c : Consumer) (g : String) :
    (add_group c g).registry = c.registry := by
  by_cases h : g ∈ c.groups <;> simp [add_group, h]

lemma subscribe_step_some (r : Nat) (c : Consumer) (g : String) :
    subscribe_step (some r) c g
      = add_group { c with registry := dict_put (dict_item c.registry g).1 g (insert r (dict_item c.registry g).2) } g := rfl

lemma add_group_mem_self (c : Consumer) (g : String) : g ∈ (add_group c g).groups := by
  by_cases h : g ∈ c.groups <;> simp [add_group, h]

lemma add_group_mem_mono (c : Consumer) (g g' : String) (h : g ∈ c.groups) :
    g ∈ (add_group c g').groups := by
  by_cases h' : g' ∈ c.groups <;> simp [add_group, h', h]

lemma subscribe_step_settled (r : Nat) (c : Consumer) (g : String) :
    group_settled r (subscribe_step (some r) c g) g := by
  rw [subscribe_step_some]
  refine ⟨?_, ?_, add_group_mem_self _ g⟩
  · rw [add_group_registry]
    exact dict_contains_put _ g _
  · rw [add_group_registry]
    rw [dict_find_put]
    exact Finset.mem_insert_self r _

lemma subscribe_step_preserves_settled (r : Nat) (c : Consumer) (g g' : String)
    (h : group_settled r c g) : group_settled r (subscribe_step (some r) c g') g := by
  by_cases hgg : g = g'
  · subst hgg; exact subscribe_step_settled r c g
  · obtain ⟨h1, h2, h3⟩ := h
    rw [subscribe_step_some]
    refine ⟨?_, ?_, add_group_mem_mono _ g g' h3⟩
    · rw [add_group_registry, dict_contains_put_ne _ g g' _ hgg,
        (dict_item_fst_ne c.registry g g' hgg).1]
      exact h1
    · rw [add_group_registry, dict_find_put_ne _ g g' _ hgg,
        (dict_item_fst_ne c.registry g g' hgg).2]
      exact h2

lemma subscribe_preserves_settled (r : Nat) (g : String) (gs : List String)
    (c : Consumer) (h : group_settled r c g) :
    group_settled r (subscribe (some r) c gs) g := by
  induction gs generalizing c with
  | nil => exact h
  | cons a tl ih =>
    exact ih (subscribe_step (some r) c a) (subscribe_step_preserves_settled r c g a h)

lemma subscribe_settles (r : Nat) (gs : List String) (c : Consumer) :
    ∀ g ∈ gs, group_settled r (subscribe (some r) c gs) g := by
  induction gs generalizing c with
  | nil => intro g hg; cases hg
  | cons a tl ih =>
    intro g hg
    rcases List.mem_cons.1 hg with rfl | hg'
    · exact subscribe_preserves_settled r g tl (subscribe_step (some r) c g)
        (subscribe_step_settled r c g)
    · exact ih (subscribe_step (some r) c a) g hg'

lemma subscribe_step_of_settled (r : Nat) (c : Consumer) (g : String)
    (h : group_settled r c g) : subscribe_step (some r) c g = c := by
  obtain ⟨h1, h2, h3⟩ := h
  have hi : dict_item c.registry g = (c.registry, dict_find c.registry g) := by
    simp [dict_item, h1]
  have hins : insert r (dict_find c.registry g) = dict_find c.registry g :=
    Finset.insert_eq_self.2 h2
  simp only [subscribe_step, hi, hins, dict_put_find_self c.registry g h1, add_group, h3,
    if_pos]

lemma subscribe_of_settled (r : Nat) (gs : List String) (c : Consumer)
    (h : ∀ g ∈ gs, group_settled r c g) : subscribe (some r) c gs = c := by
  induction gs with
  | nil => rfl
  | cons a tl ih =>
    have ha := subscribe_step_of_settled r c a (h a (List.mem_cons_self a tl))
    show subscribe (some r) (subscribe_step (some r) c a) tl = c
    rw [ha]
    exact ih (fun g hg => h g (List.mem_cons_of_mem a hg))

/-- C7: subscribing twice with the same request_id to the same resolved
groups is idempotent: the second subscribe leaves the whole consumer state
(registry, joined groups, and the log of issued transport group_add calls)
unchanged, and after subscribing, each resolved group's registry entry holds
the request_id exactly once, with the consumer joined to the group — so a
subsequent event produces exactly one delivery carrying that id. -/
theorem double_subscribe_idempotent (r : Nat) (gs : List String) (c : Consumer) :
    subscribe (some r) (subscribe (some r) c gs) gs = subscribe (some r) c gs ∧
    ∀ g ∈ gs,
      (dict_find (subscribe (some r) c gs).registry g).val.count r = 1 ∧
      g ∈ (subscribe (some r) c gs).groups := by
  constructor
  · exact subscribe_of_settled r gs (subscribe (some r) c gs)
      (subscribe_settles r gs c)
  · intro g hg
    obtain ⟨h1, h2, h3⟩ := subscribe_settles r gs c g hg
    exact ⟨Multiset.count_eq_one_of_mem (dict_find _ g).nodup h2, h3⟩

/-- C7 witness: a fresh consumer subscribing request 7 to group g. -/
theorem double_subscribe_idempotent_witness :
    (dict_find (subscribe (some 7) ⟨[], ∅, [], []⟩ ["g"]).registry "g").val.count 7 = 1 ∧
    "g" ∈ (subscribe (some 7) ⟨[], ∅, [], []⟩ ["g"]).groups :=
  (double_subscribe_idempotent 7 ["g"] ⟨[], ∅, [], []⟩).2 "g" (by decide)

/-- The group-name configuration of a BaseObserver: the stable observer id,
the subclass-provided default `group_names`, and the two optional
decorator-registered overrides.  Overrides and the default are functions of
the call arguments, abstracted as a type `α`; each returns the raw group
tokens it would yield. -/
structure ObserverCfg (α : Type) : Type where
  _stable_observer_id : String
  group_names : α → List String
  _group_names_for_consumer : Option (α → List String)
  _group_names_for_signal : Option (α → List String)

/-- BaseObserver.clean_group_name: prefixes DCRF- and hashes the name;
`hash` stands for sha256 hexdigest (an arbitrary digest function in the
model). -/
def clean_group_name (hash : String → String) (name : String) : String :=
  "DCRF-" ++ hash name

/-- BaseObserver.group_names_for_consumer: uses the registered
consumer-side override (prefixed with the stable observer id) when present,
otherwise falls back to the default `group_names`. -/
def group_names_for_consumer (hash : String → String) (o : ObserverCfg α)
    (a : α) : List String :=
  match o._group_names_for_consumer with
  | some f =>
      (f a).map (fun g => clean_group_name hash (o._stable_observer_id ++ "-" ++ g))
  | none => (o.group_names a).map (fun g => clean_group_name hash g)

/-- BaseObserver.group_names_for_signal: uses the registered signal-side
override (prefixed with the stable observer id) when present, otherwise
falls back to the default `group_names`. -/
def group_names_for_signal (hash : String → String) (o : ObserverCfg α)
    (a : α) : List String :=
  match o._group_names_for_signal with
  | some f =>
      (f a).map (fun g => clean_group_name hash (o._stable_observer_id ++ "-" ++ g))
  | none => (o.group_names a).map (fun g => clean_group_name hash g)

/-- An observer with a groups_for_signal override registered but no
groups_for_consumer override (identity digest for concreteness). -/
def signal_only_observer : ObserverCfg Unit :=
  ⟨"sid", fun _ => ["y"], none, some (fun _ => ["x"])⟩

/-- C8 counterexample: with a groups_for_signal override registered and no
groups_for_consumer override, the subscribe-side enumeration falls back to
the default `group_names` (not to `group_names_for_signal`), so the two
sides disagree. -/
theorem group_names_sides_disagree :
    group_names_for_consumer id signal_only_observer ()
      ≠ group_names_for_signal id signal_only_observer () := by
  decide

/-- C8 amended: the consumer-side defaults to the plain `group_names`
enumeration, not to `group_names_for_signal`; the subscribe-side and
notify-side enumerations coincide whenever neither override is registered
(and can differ as soon as only a signal-side override is). -/
theorem group_names_agree_without_overrides (α : Type) (hash : String → String)
    (o : ObserverCfg α) (a : α)
    (h1 : o._group_names_for_consumer = none)
    (h2 : o._group_names_for_signal = none) :
    group_names_for_consumer hash o a = group_names_for_signal hash o a := by
  simp [group_names_for_consumer, group_names_for_signal, h1, h2]

/-- C8 amended witness: an override-free observer. -/
theorem group_names_agree_without_overrides_witness :
    group_names_for_consumer id
        (⟨"sid", fun _ => ["y"], none, none⟩ : ObserverCfg Unit) ()
      = group_names_for_signal id
        (⟨"sid", fun _ => ["y"], none, none⟩ : ObserverCfg Unit) () :=
  group_names_agree_without_overrides Unit id
    ⟨"sid", fun _ => ["y"], none, none⟩ () rfl rfl

end DCRF
